import Mathlib

/-!
Verification of `torchrec/distributed/planner/storage_reservations.py`.

The file shallowly embeds the storage-reservation subsystem: the two
reservation strategies (`FixedPercentageReservation`,
`HeuristicalStorageReservation`) and the helper routines
(`_reserve_storage_percentage`, `_get_tensor_size`,
`_reserve_dense_storage`, `_reserve_kjt_storage`).

Modelling conventions:
  * Python floats are modelled as exact rationals (`ℚ`); storage amounts
    are integers (`ℤ`, allowed to go negative, as in the source).
  * Python `int(...)` truncation toward zero is `pyInt`; `math.ceil` is
    `ratCeil`.
  * A module hierarchy (`torch.nn.Module`) is a finite tree whose nodes
    carry a type key (standing for `sharder_name(type(m))`), the node's own
    tensors, and child modules.  `module.modules()` is the preorder node
    list; `module.state_dict()` is the list of all tensors in the subtree.
  * In-place mutation of the deep-cloned topology is modelled by returning
    the updated topology value.
-/

namespace TorchRec

/-- Modelled from the spec: the external `Storage` value type of
`torchrec.distributed.planner.types` (not under `src/`) — an ordered pair
(accelerator bytes `hbm`, host bytes `ddr`) supporting element-wise
subtraction; no non-negativity is enforced. -/
structure Storage where
  hbm : ℤ
  ddr : ℤ
  deriving DecidableEq

/-- Element-wise subtraction `device.storage -= reservation`. -/
def Storage.sub (a b : Storage) : Storage :=
  ⟨a.hbm - b.hbm, a.ddr - b.ddr⟩

instance : Sub Storage := ⟨Storage.sub⟩

/-- Modelled from the spec: the external `Device`, owning one mutable
`Storage` budget. -/
structure Device where
  storage : Storage
  deriving DecidableEq

/-- Modelled from the spec: the external `Topology` — an ordered device
sequence plus `compute_device` (a string such as `"cuda"` or `"cpu"`) and a
positive `batch_size`. -/
structure Topology where
  devices : List Device
  compute_device : String
  batch_size : ℕ
  deriving DecidableEq

/-- Modelled from the spec: a tensor as seen by `_get_tensor_size` —
element byte width, element count, and the gradient-required flag. -/
structure Tensor where
  element_size : ℕ
  nelement : ℕ
  requires_grad : Bool
  deriving DecidableEq

/-- Modelled from the spec: the `torch.nn.Module` hierarchy — a tree whose
nodes carry a type key (the value of `sharder_name(type(module))`), the
node's own tensors, and the child modules. -/
inductive Module where
  | mk : String → List Tensor → List Module → Module

/-- The node's type key, i.e. `sharder_name(type(module))`. -/
def Module.typeKey : Module → String
  | .mk k _ _ => k

/-- The tensors registered directly on this node (not its children). -/
def Module.ownTensors : Module → List Tensor
  | .mk _ ts _ => ts

/-- The direct child modules. -/
def Module.children : Module → List Module
  | .mk _ _ cs => cs

mutual

/-- `module.modules()`: the node itself followed by all descendants. -/
def Module.nodes : Module → List Module
  | .mk k ts cs => .mk k ts cs :: Module.nodesList cs

/-- All nodes of a forest, in order. -/
def Module.nodesList : List Module → List Module
  | [] => []
  | m :: ms => Module.nodes m ++ Module.nodesList ms

end

/-- The size one tensor contributes inside `_get_tensor_size`:
`6 * element_size * nelement` when it requires gradients (parameter +
optimizer + ddp heuristic), `element_size * nelement` otherwise. -/
def tensor_size_of (t : Tensor) : ℤ :=
  if t.requires_grad then 6 * t.element_size * t.nelement
  else t.element_size * t.nelement

/-- The total size of a node's own tensors. -/
def Module.ownSize (m : Module) : ℤ :=
  (m.ownTensors.map tensor_size_of).sum

mutual

/-- `_get_tensor_size(module)`: the summed contribution of every tensor in
`module.state_dict()`, i.e. of the whole subtree. -/
def get_tensor_size : Module → ℤ
  | .mk k ts cs => (Module.mk k ts cs).ownSize + get_tensor_size_list cs

/-- `_get_tensor_size` summed over a forest. -/
def get_tensor_size_list : List Module → ℤ
  | [] => 0
  | m :: ms => get_tensor_size m + get_tensor_size_list ms

end

/-- Modelled from the spec: the external `ModuleSharder`, reduced to the two
features the core uses — its `module_type` identity key and the names of the
parameters it can shard on a given module. -/
structure ModuleSharder where
  module_type : String
  shardable_parameters : Module → List String

/-- `sharder_name`: the stable string key of a module type.  Type keys are
already strings in the embedding. -/
def sharder_name (t : String) : String := t

/-- Lookup in `sharder_map = {sharder_name(s.module_type): s for s in
sharders}`: a later sharder with the same key overwrites an earlier one, so
the lookup finds the last match. -/
def sharder_map_get (sharders : List ModuleSharder) (key : String) :
    Option ModuleSharder :=
  sharders.reverse.find? (fun s => sharder_name s.module_type == key)

/-- Whether a node matches some registered sharder (the `if not sharder:
continue` test; sharder objects are always truthy). -/
def is_shardable (sharders : List ModuleSharder) (m : Module) : Bool :=
  (sharder_map_get sharders m.typeKey).isSome

/-- Modelled from the spec: the external `ParameterConstraints` record,
reduced to the only field the core reads — the pooling factors.  A
`ParameterConstraints` instance is a plain record and hence always truthy
in the source's `constraints and constraints.get(name)` test. -/
structure ParameterConstraints where
  pooling_factors : List ℚ
  deriving DecidableEq

/-- The optional constraints dictionary, as an association list (first
match wins, as dictionary keys are unique). -/
abbrev Constraints : Type := Option (List (String × ParameterConstraints))

/-- `constraints.get(name)`. -/
def constraints_get (cs : List (String × ParameterConstraints))
    (name : String) : Option ParameterConstraints :=
  (cs.find? (fun p => p.fst == name)).map (fun p => p.snd)

/-- Modelled from the spec: the default pooling-factor constant
`POOLING_FACTOR` of `torchrec.distributed.planner.constants` (not under
`src/`). -/
def POOLING_FACTOR : ℚ := 1

/-- Modelled from the spec: `BIGINT_DTYPE`, the byte width of a
big-integer dtype (8 bytes), from `torchrec.distributed.planner.constants`
(not under `src/`). -/
def BIGINT_DTYPE : ℕ := 8

/-- One entry of the input-length comprehension:
`sum(constraints[name].pooling_factors) if constraints and
constraints.get(name) else POOLING_FACTOR`.  An absent dictionary, an empty
dictionary, or an absent entry is falsy and yields `POOLING_FACTOR`; a
present entry is truthy and yields the sum of its pooling factors. -/
def input_length (constraints : Constraints) (name : String) : ℚ :=
  match constraints with
  | none => POOLING_FACTOR
  | some cs =>
    match constraints_get cs name with
    | some pc => pc.pooling_factors.sum
    | none => POOLING_FACTOR

/-- `all_input_lengths` accumulated by the traversal loop of
`HeuristicalStorageReservation.reserve`. -/
def all_input_lengths (sharders : List ModuleSharder)
    (constraints : Constraints) (m : Module) : List ℚ :=
  m.nodes.flatMap (fun n =>
    match sharder_map_get sharders n.typeKey with
    | some sh => (sh.shardable_parameters n).map (input_length constraints)
    | none => [])

/-- `shardable_modules` accumulated by the same loop. -/
def shardable_modules (sharders : List ModuleSharder) (m : Module) :
    List Module :=
  m.nodes.filter (is_shardable sharders)

/-- Python `int(q)`: truncation toward zero. -/
def pyInt (q : ℚ) : ℤ :=
  q.num.tdiv q.den

/-- `math.floor` on an exact rational. -/
def ratFloor (q : ℚ) : ℤ :=
  q.num / (q.den : ℤ)

/-- `math.ceil` on an exact rational. -/
def ratCeil (q : ℚ) : ℤ :=
  -(ratFloor (-q))

/-- `_reserve_storage_percentage(topology, percent)`: every device's two
capacity fields are scaled by `1 - percent` and truncated to an integer. -/
def reserve_storage_percentage (t : Topology) (percent : ℚ) : Topology :=
  { t with
    devices := t.devices.map (fun d =>
      ⟨⟨pyInt ((1 - percent) * (d.storage.hbm : ℚ)),
        pyInt ((1 - percent) * (d.storage.ddr : ℚ))⟩⟩) }

/-- The `unshardable_tensors_size` scalar of `_reserve_dense_storage`,
with the shardable-module list recomputed exactly as the caller builds it. -/
def unshardable_size (sharders : List ModuleSharder) (m : Module) : ℤ :=
  get_tensor_size m -
    ((shardable_modules sharders m).map get_tensor_size).sum

/-- `_reserve_dense_storage(topology, module, shardable_modules)`: builds the
unshardable-tensors `Storage` (all in `hbm` for `"cuda"`, all in `ddr` for
`"cpu"`, zero otherwise), subtracts it from every device, and returns it. -/
def reserve_dense_storage (t : Topology) (m : Module)
    (shardables : List Module) : Topology × Storage :=
  let unshardable_tensors_size : ℤ :=
    get_tensor_size m - (shardables.map get_tensor_size).sum
  let unshardable_tensors_storage : Storage :=
    ⟨if t.compute_device = "cuda" then unshardable_tensors_size else 0,
     if t.compute_device = "cpu" then unshardable_tensors_size else 0⟩
  ({ t with
     devices := t.devices.map (fun d =>
       ⟨d.storage - unshardable_tensors_storage⟩) },
   unshardable_tensors_storage)

/-- `_reserve_kjt_storage(topology, all_input_lengths,
input_data_type_size)`: `kjt_size = ceil(batch_size * sum(all_input_lengths)
* input_data_type_size) * 20`, placed like the dense storage and subtracted
from every device. -/
def reserve_kjt_storage (t : Topology) (lengths : List ℚ)
    (input_data_type_size : ℕ) : Topology × Storage :=
  let kjt_size : ℤ :=
    ratCeil ((t.batch_size : ℚ) * lengths.sum * (input_data_type_size : ℚ))
      * 20
  let kjt_storage : Storage :=
    ⟨if t.compute_device = "cuda" then kjt_size else 0,
     if t.compute_device = "cpu" then kjt_size else 0⟩
  ({ t with
     devices := t.devices.map (fun d => ⟨d.storage - kjt_storage⟩) },
   kjt_storage)

/-- The fixed-percentage strategy; its stored configuration. -/
structure FixedPercentageReservation where
  percentage : ℚ

/-- `FixedPercentageReservation.__init__`: the `assert percentage >= 0 and
percentage <= 1` guard, modelled as a fallible constructor. -/
def FixedPercentageReservation.init (percentage : ℚ) :
    Option FixedPercentageReservation :=
  if 0 ≤ percentage ∧ percentage ≤ 1 then some ⟨percentage⟩ else none

/-- `FixedPercentageReservation.reserve`: deep-clone the topology and apply
the percentage cut; the module, sharder, and constraint arguments are
ignored. -/
def FixedPercentageReservation.reserve (r : FixedPercentageReservation)
    (topology : Topology) (_m : Module) (_sharders : List ModuleSharder)
    (_constraints : Constraints) : Topology :=
  reserve_storage_percentage topology r.percentage

/-- The heuristic strategy; its stored configuration. -/
structure HeuristicalStorageReservation where
  percentage : ℚ

/-- `HeuristicalStorageReservation.__init__`: the same percentage guard. -/
def HeuristicalStorageReservation.init (percentage : ℚ) :
    Option HeuristicalStorageReservation :=
  if 0 ≤ percentage ∧ percentage ≤ 1 then some ⟨percentage⟩ else none

/-- The outcome of `HeuristicalStorageReservation.reserve`: the returned
topology plus the two `Storage` amounts retained on the strategy instance
(`self._dense_storage`, `self._kjt_storage`). -/
structure HeuristicalReserveResult where
  reserved_topology : Topology
  dense_storage : Storage
  kjt_storage : Storage
  deriving DecidableEq

/-- `HeuristicalStorageReservation.reserve`: walk the hierarchy collecting
input lengths and shardable modules, apply the percentage cut, then the
dense reservation, then the KJT reservation, in that order. -/
def HeuristicalStorageReservation.reserve
    (r : HeuristicalStorageReservation) (topology : Topology) (m : Module)
    (sharders : List ModuleSharder) (constraints : Constraints) :
    HeuristicalReserveResult :=
  let lengths := all_input_lengths sharders constraints m
  let shardables := shardable_modules sharders m
  let t1 := reserve_storage_percentage topology r.percentage
  let dense := reserve_dense_storage t1 m shardables
  let kjt := reserve_kjt_storage dense.1 lengths BIGINT_DTYPE
  ⟨kjt.1, dense.2, kjt.2⟩

mutual

/-- The hierarchy with every shardable node's own tensors removed (children
kept intact); used to express that shardable nodes' tensors do not
contribute to the dense reservation. -/
def erase_shardable_own (sharders : List ModuleSharder) :
    Module → Module
  | .mk k ts cs =>
    .mk k (if is_shardable sharders (.mk k ts cs) then [] else ts)
      (erase_shardable_own_list sharders cs)

/-- `erase_shardable_own` over a forest. -/
def erase_shardable_own_list (sharders : List ModuleSharder) :
    List Module → List Module
  | [] => []
  | m :: ms =>
    erase_shardable_own sharders m :: erase_shardable_own_list sharders ms

end

/-- The summed own-tensor size of the shardable nodes of a subtree. -/
def shardable_own_sum (sharders : List ModuleSharder) (m : Module) : ℤ :=
  ((m.nodes.filter (is_shardable sharders)).map Module.ownSize).sum

/-- The summed own-tensor size of the shardable nodes of a forest. -/
def shardable_own_sum_list (sharders : List ModuleSharder)
    (ms : List Module) : ℤ :=
  (((Module.nodesList ms).filter (is_shardable sharders)).map
    Module.ownSize).sum

/-- No shardable node lies strictly below another shardable node. -/
def no_nested_shardables (sharders : List ModuleSharder) (m : Module) :
    Bool :=
  m.nodes.all (fun n =>
    !(is_shardable sharders n) ||
      (Module.nodesList n.children).all (fun d => !(is_shardable sharders d)))

/-! ## Bridge lemmas -/

theorem Storage.sub_def (a b : Storage) :
    a - b = ⟨a.hbm - b.hbm, a.ddr - b.ddr⟩ := rfl

theorem ratFloor_eq_floor (q : ℚ) : ratFloor q = ⌊q⌋ :=
  Rat.floor_def.symm

theorem ratCeil_eq_ceil (q : ℚ) : ratCeil q = ⌈q⌉ := by
  rw [ratCeil, ratFloor_eq_floor, Int.floor_neg, neg_neg]

/-- Python truncation agrees with the floor on non-negative rationals. -/
theorem pyInt_eq_floor (q : ℚ) (h : 0 ≤ q) : pyInt q = ⌊q⌋ := by
  rw [Rat.floor_def, pyInt]
  obtain ⟨n, hn⟩ : ∃ n : ℕ, q.num = Int.ofNat n :=
    ⟨q.num.toNat, (Int.toNat_of_nonneg (Rat.num_nonneg.mpr h)).symm⟩
  rw [hn]
  rfl

/-- Python truncation of an integer-valued rational is that integer. -/
theorem pyInt_intCast (n : ℤ) : pyInt ((n : ℤ) : ℚ) = n := by
  rw [pyInt, Rat.num_intCast, Rat.den_intCast]
  exact Int.tdiv_one n

/-- Subtracting the zero storage from every device is the identity. -/
theorem map_sub_zero_storage (l : List Device) :
    l.map (fun d => (⟨d.storage - ⟨0, 0⟩⟩ : Device)) = l := by
  induction l with
  | nil => rfl
  | cons d l ih => simp [Storage.sub_def, ih]

/-! ## Claims -/

/-- C2: for every percentage `p ∈ [0,1]` and every topology whose device
budgets are non-negative, `FixedPercentageReservation(p).reserve` returns a
topology in which every device's capacity equals `⌊(1-p) × original⌋` in
both storage fields, the other topology fields are unchanged, and the
result does not depend on the module, sharder, or constraint arguments. -/
theorem c2_fixed_percentage_budgets (r : FixedPercentageReservation)
    (t : Topology) (m : Module) (sharders : List ModuleSharder)
    (constraints : Constraints)
    (hp0 : 0 ≤ r.percentage) (hp1 : r.percentage ≤ 1)
    (hnn : ∀ d ∈ t.devices, 0 ≤ d.storage.hbm ∧ 0 ≤ d.storage.ddr) :
    (r.reserve t m sharders constraints).devices =
      t.devices.map (fun d =>
        ⟨⟨⌊(1 - r.percentage) * (d.storage.hbm : ℚ)⌋,
          ⌊(1 - r.percentage) * (d.storage.ddr : ℚ)⌋⟩⟩)
    ∧ (r.reserve t m sharders constraints).compute_device = t.compute_device
    ∧ (r.reserve t m sharders constraints).batch_size = t.batch_size
    ∧ ∀ (m2 : Module) (sharders2 : List ModuleSharder)
        (constraints2 : Constraints),
        r.reserve t m2 sharders2 constraints2 =
          r.reserve t m sharders constraints := by
  refine ⟨?_, rfl, rfl, fun _ _ _ => rfl⟩
  simp only [FixedPercentageReservation.reserve, reserve_storage_percentage]
  refine List.map_congr_left ?_
  intro d hd
  obtain ⟨hh, hdd⟩ := hnn d hd
  have e1 : (0:ℚ) ≤ (1 - r.percentage) * (d.storage.hbm : ℚ) :=
    mul_nonneg (by linarith) (by exact_mod_cast hh)
  have e2 : (0:ℚ) ≤ (1 - r.percentage) * (d.storage.ddr : ℚ) :=
    mul_nonneg (by linarith) (by exact_mod_cast hdd)
  rw [pyInt_eq_floor _ e1, pyInt_eq_floor _ e2]

/-- Witness for C2 at a concrete input. -/
theorem c2_witness :
    (0:ℚ) ≤ (0:ℚ) ∧ (0:ℚ) ≤ 1 ∧
    (FixedPercentageReservation.reserve ⟨0⟩
        ⟨[⟨⟨100, 200⟩⟩], "cuda", 4⟩ (.mk "root" [] []) [] none).devices =
      (⟨[⟨⟨100, 200⟩⟩], "cuda", 4⟩ : Topology).devices.map (fun d =>
        ⟨⟨⌊(1 - (0:ℚ)) * (d.storage.hbm : ℚ)⌋,
          ⌊(1 - (0:ℚ)) * (d.storage.ddr : ℚ)⌋⟩⟩) :=
  ⟨le_refl 0, zero_le_one,
    (c2_fixed_percentage_budgets ⟨0⟩ ⟨[⟨⟨100, 200⟩⟩], "cuda", 4⟩
      (.mk "root" [] []) [] none (le_refl 0) zero_le_one (by decide)).1⟩

/-- C1: for the heuristic strategy with `p ∈ [0,1]`, on a topology with
non-negative device budgets, every device budget in the returned topology
equals `⌊(1-p) × original⌋` minus the dense reservation minus the KJT
reservation, field by field — the percentage cut, the dense cut, and the
KJT cut applied in that order. -/
theorem c1_heuristic_budget_decomposition (r : HeuristicalStorageReservation)
    (t : Topology) (m : Module) (sharders : List ModuleSharder)
    (constraints : Constraints)
    (hp0 : 0 ≤ r.percentage) (hp1 : r.percentage ≤ 1)
    (hnn : ∀ d ∈ t.devices, 0 ≤ d.storage.hbm ∧ 0 ≤ d.storage.ddr) :
    (r.reserve t m sharders constraints).reserved_topology.devices =
      t.devices.map (fun d =>
        ⟨⟨⌊(1 - r.percentage) * (d.storage.hbm : ℚ)⌋
            - (r.reserve t m sharders constraints).dense_storage.hbm
            - (r.reserve t m sharders constraints).kjt_storage.hbm,
          ⌊(1 - r.percentage) * (d.storage.ddr : ℚ)⌋
            - (r.reserve t m sharders constraints).dense_storage.ddr
            - (r.reserve t m sharders constraints).kjt_storage.ddr⟩⟩) := by
  simp only [HeuristicalStorageReservation.reserve, reserve_storage_percentage,
    reserve_dense_storage, reserve_kjt_storage, List.map_map]
  refine List.map_congr_left ?_
  intro d hd
  obtain ⟨hh, hdd⟩ := hnn d hd
  have e1 : (0:ℚ) ≤ (1 - r.percentage) * (d.storage.hbm : ℚ) :=
    mul_nonneg (by linarith) (by exact_mod_cast hh)
  have e2 : (0:ℚ) ≤ (1 - r.percentage) * (d.storage.ddr : ℚ) :=
    mul_nonneg (by linarith) (by exact_mod_cast hdd)
  simp only [Function.comp_apply, Storage.sub_def, pyInt_eq_floor _ e1,
    pyInt_eq_floor _ e2]

/-- Witness for C1 at a concrete input. -/
theorem c1_witness :
    (0:ℚ) ≤ (0:ℚ) ∧ (0:ℚ) ≤ 1 ∧
    (HeuristicalStorageReservation.reserve ⟨0⟩
        ⟨[⟨⟨1000, 2000⟩⟩], "cuda", 4⟩
        (.mk "root" [⟨4, 3, true⟩] []) [] none).reserved_topology.devices =
      (⟨[⟨⟨1000, 2000⟩⟩], "cuda", 4⟩ : Topology).devices.map (fun d =>
        ⟨⟨⌊(1 - (0:ℚ)) * (d.storage.hbm : ℚ)⌋
            - (HeuristicalStorageReservation.reserve ⟨0⟩
                ⟨[⟨⟨1000, 2000⟩⟩], "cuda", 4⟩
                (.mk "root" [⟨4, 3, true⟩] []) [] none).dense_storage.hbm
            - (HeuristicalStorageReservation.reserve ⟨0⟩
                ⟨[⟨⟨1000, 2000⟩⟩], "cuda", 4⟩
                (.mk "root" [⟨4, 3, true⟩] []) [] none).kjt_storage.hbm,
          ⌊(1 - (0:ℚ)) * (d.storage.ddr : ℚ)⌋
            - (HeuristicalStorageReservation.reserve ⟨0⟩
                ⟨[⟨⟨1000, 2000⟩⟩], "cuda", 4⟩
                (.mk "root" [⟨4, 3, true⟩] []) [] none).dense_storage.ddr
            - (HeuristicalStorageReservation.reserve ⟨0⟩
                ⟨[⟨⟨1000, 2000⟩⟩], "cuda", 4⟩
                (.mk "root" [⟨4, 3, true⟩] []) [] none).kjt_storage.ddr⟩⟩) :=
  ⟨le_refl 0, zero_le_one,
    c1_heuristic_budget_decomposition ⟨0⟩ ⟨[⟨⟨1000, 2000⟩⟩], "cuda", 4⟩
      (.mk "root" [⟨4, 3, true⟩] []) [] none (le_refl 0) zero_le_one
      (by decide)⟩

/-- C3: each counted tensor contributes `element_size × nelement`, scaled
by 6 when it requires gradients; the dense reservation of the heuristic
strategy equals the whole model's tensor size minus the shardable modules'
tensor sizes, placed entirely in the accelerator field for `"cuda"` and
entirely in the host field for `"cpu"`; and `_reserve_dense_storage`
subtracts the built storage from every device's budget. -/
theorem c3_dense_reservation (r : HeuristicalStorageReservation)
    (t : Topology) (m : Module) (sharders : List ModuleSharder)
    (constraints : Constraints)
    (hcd : t.compute_device = "cuda" ∨ t.compute_device = "cpu") :
    (∀ tsr : Tensor, tensor_size_of tsr =
        if tsr.requires_grad then
          6 * (tsr.element_size : ℤ) * (tsr.nelement : ℤ)
        else (tsr.element_size : ℤ) * (tsr.nelement : ℤ))
    ∧ (r.reserve t m sharders constraints).dense_storage =
        (if t.compute_device = "cuda" then
          (⟨unshardable_size sharders m, 0⟩ : Storage)
        else ⟨0, unshardable_size sharders m⟩)
    ∧ ∀ (t2 : Topology) (shardables : List Module),
        (reserve_dense_storage t2 m shardables).1.devices =
          t2.devices.map (fun d =>
            ⟨d.storage - (reserve_dense_storage t2 m shardables).2⟩) := by
  refine ⟨fun _ => rfl, ?_, fun _ _ => rfl⟩
  rcases hcd with h | h <;>
    simp [HeuristicalStorageReservation.reserve, reserve_dense_storage,
      reserve_storage_percentage, unshardable_size, h]

/-- Witness for C3 at a concrete input. -/
theorem c3_witness :
    ((⟨[⟨⟨50, 60⟩⟩], "cuda", 2⟩ : Topology).compute_device = "cuda" ∨
      (⟨[⟨⟨50, 60⟩⟩], "cuda", 2⟩ : Topology).compute_device = "cpu")
    ∧ (HeuristicalStorageReservation.reserve ⟨0⟩ ⟨[⟨⟨50, 60⟩⟩], "cuda", 2⟩
        (.mk "root" [⟨2, 3, false⟩] []) [] none).dense_storage =
        (if (⟨[⟨⟨50, 60⟩⟩], "cuda", 2⟩ : Topology).compute_device = "cuda"
        then (⟨unshardable_size [] (.mk "root" [⟨2, 3, false⟩] []), 0⟩ :
          Storage)
        else ⟨0, unshardable_size [] (.mk "root" [⟨2, 3, false⟩] [])⟩) :=
  ⟨Or.inl rfl,
    (c3_dense_reservation ⟨0⟩ ⟨[⟨⟨50, 60⟩⟩], "cuda", 2⟩
      (.mk "root" [⟨2, 3, false⟩] []) [] none (Or.inl rfl)).2.1⟩

/-- C4: the KJT reservation built by `_reserve_kjt_storage` equals
`⌈batch_size × (sum of input lengths) × dtype width⌉ × 20`, placed in the
field matching `compute_device`; and on the concrete model with one
shardable submodule claiming one parameter with pooling factors `[2, 3]`,
batch size 4 and dtype width 8, the heuristic strategy reserves exactly
3200 units in the accelerator field. -/
theorem c4_kjt_reservation :
    (∀ (t : Topology) (lengths : List ℚ) (w : ℕ),
      (reserve_kjt_storage t lengths w).2 =
        ⟨if t.compute_device = "cuda" then
            ⌈(t.batch_size : ℚ) * lengths.sum * (w : ℚ)⌉ * 20 else 0,
         if t.compute_device = "cpu" then
            ⌈(t.batch_size : ℚ) * lengths.sum * (w : ℚ)⌉ * 20 else 0⟩)
    ∧ (HeuristicalStorageReservation.reserve ⟨0⟩
        ⟨[⟨⟨100000, 100000⟩⟩], "cuda", 4⟩
        (.mk "root" [] [.mk "EBC" [] []])
        [⟨"EBC", fun _ => ["p"]⟩]
        (some [("p", ⟨[2, 3]⟩)])).kjt_storage = ⟨3200, 0⟩ := by
  constructor
  · intro t lengths w
    simp [reserve_kjt_storage, ratCeil_eq_ceil]
  · have hlen : all_input_lengths [⟨"EBC", fun _ => ["p"]⟩]
        (some [("p", ⟨[2, 3]⟩)]) (.mk "root" [] [.mk "EBC" [] []]) =
        [(2 : ℚ) + 3] := by
      simp [all_input_lengths, Module.nodes, Module.nodesList,
        sharder_map_get, sharder_name, input_length, constraints_get,
        Module.typeKey, List.sum_cons, List.sum_nil]
    simp only [HeuristicalStorageReservation.reserve, reserve_kjt_storage,
      reserve_dense_storage, reserve_storage_percentage, hlen,
      ratCeil_eq_ceil]
    norm_num [BIGINT_DTYPE]
    decide

/-- C10: when the compute device is neither `"cuda"` nor `"cpu"`, both the
dense and the KJT reservation are the zero storage, and the heuristic
strategy's returned topology is exactly the percentage cut of the input. -/
theorem c10_other_compute_device (r : HeuristicalStorageReservation)
    (t : Topology) (m : Module) (sharders : List ModuleSharder)
    (constraints : Constraints)
    (h1 : t.compute_device ≠ "cuda") (h2 : t.compute_device ≠ "cpu") :
    (r.reserve t m sharders constraints).dense_storage = ⟨0, 0⟩
    ∧ (r.reserve t m sharders constraints).kjt_storage = ⟨0, 0⟩
    ∧ (r.reserve t m sharders constraints).reserved_topology =
        reserve_storage_percentage t r.percentage := by
  refine ⟨?_, ?_, ?_⟩ <;>
    simp only [HeuristicalStorageReservation.reserve, reserve_kjt_storage,
      reserve_dense_storage, reserve_storage_percentage, if_neg h1,
      if_neg h2]
  rw [Topology.mk.injEq]
  refine ⟨?_, rfl, rfl⟩
  rw [map_sub_zero_storage, map_sub_zero_storage]

/-- Witness for C10 at a concrete input. -/
theorem c10_witness :
    ((⟨[⟨⟨40, 40⟩⟩], "mtia", 2⟩ : Topology).compute_device ≠ "cuda")
    ∧ ((⟨[⟨⟨40, 40⟩⟩], "mtia", 2⟩ : Topology).compute_device ≠ "cpu")
    ∧ (HeuristicalStorageReservation.reserve ⟨0⟩ ⟨[⟨⟨40, 40⟩⟩], "mtia", 2⟩
        (.mk "root" [⟨2, 3, true⟩] []) [] none).dense_storage = ⟨0, 0⟩ :=
  ⟨by decide, by decide,
    (c10_other_compute_device ⟨0⟩ ⟨[⟨⟨40, 40⟩⟩], "mtia", 2⟩
      (.mk "root" [⟨2, 3, true⟩] []) [] none (by decide) (by decide)).1⟩

/-- C7: when no module matches any sharder (in particular with an empty
sharder registry), the heuristic strategy's dense reservation equals the
full model's tensor size, the KJT reservation is zero, and each device's
post-reservation budget is `⌊(1-p) × original⌋` minus the full model size
in the field matching `compute_device`. -/
theorem c7_no_matching_sharder (r : HeuristicalStorageReservation)
    (t : Topology) (m : Module) (sharders : List ModuleSharder)
    (constraints : Constraints)
    (hmatch : ∀ n ∈ m.nodes, sharder_map_get sharders n.typeKey = none)
    (hp0 : 0 ≤ r.percentage) (hp1 : r.percentage ≤ 1)
    (hnn : ∀ d ∈ t.devices, 0 ≤ d.storage.hbm ∧ 0 ≤ d.storage.ddr) :
    (r.reserve t m sharders constraints).dense_storage =
      ⟨if t.compute_device = "cuda" then get_tensor_size m else 0,
       if t.compute_device = "cpu" then get_tensor_size m else 0⟩
    ∧ (r.reserve t m sharders constraints).kjt_storage = ⟨0, 0⟩
    ∧ (r.reserve t m sharders constraints).reserved_topology.devices =
        t.devices.map (fun d =>
          ⟨⟨⌊(1 - r.percentage) * (d.storage.hbm : ℚ)⌋
              - (if t.compute_device = "cuda" then get_tensor_size m else 0),
            ⌊(1 - r.percentage) * (d.storage.ddr : ℚ)⌋
              - (if t.compute_device = "cpu" then get_tensor_size m
                else 0)⟩⟩) := by
  have hsh : shardable_modules sharders m = [] := by
    refine List.filter_eq_nil_iff.mpr ?_
    intro n hn
    simp [is_shardable, hmatch n hn]
  have hlen : all_input_lengths sharders constraints m = [] := by
    refine List.flatMap_eq_nil_iff.mpr ?_
    intro n hn
    simp [hmatch n hn]
  refine ⟨?_, ?_, ?_⟩
  · simp [HeuristicalStorageReservation.reserve, reserve_dense_storage,
      reserve_kjt_storage, reserve_storage_percentage, hsh]
  · simp [HeuristicalStorageReservation.reserve, reserve_dense_storage,
      reserve_kjt_storage, reserve_storage_percentage, hlen,
      ratCeil_eq_ceil]
  · simp only [HeuristicalStorageReservation.reserve, reserve_dense_storage,
      reserve_kjt_storage, reserve_storage_percentage, hsh, hlen,
      List.map_map, List.map_nil, List.sum_nil, sub_zero]
    refine List.map_congr_left ?_
    intro d hd
    obtain ⟨hh, hdd⟩ := hnn d hd
    have e1 : (0:ℚ) ≤ (1 - r.percentage) * (d.storage.hbm : ℚ) :=
      mul_nonneg (by linarith) (by exact_mod_cast hh)
    have e2 : (0:ℚ) ≤ (1 - r.percentage) * (d.storage.ddr : ℚ) :=
      mul_nonneg (by linarith) (by exact_mod_cast hdd)
    simp [Function.comp_apply, Storage.sub_def, pyInt_eq_floor _ e1,
      pyInt_eq_floor _ e2, ratCeil_eq_ceil]

/-- Witness for C7 at a concrete input. -/
theorem c7_witness :
    (∀ n ∈ (Module.mk "root" [⟨1, 2, false⟩] []).nodes,
      sharder_map_get [] n.typeKey = none)
    ∧ (HeuristicalStorageReservation.reserve ⟨0⟩ ⟨[⟨⟨10, 10⟩⟩], "cuda", 1⟩
        (.mk "root" [⟨1, 2, false⟩] []) [] none).kjt_storage = ⟨0, 0⟩ :=
  ⟨fun _ _ => rfl,
    (c7_no_matching_sharder ⟨0⟩ ⟨[⟨⟨10, 10⟩⟩], "cuda", 1⟩
      (.mk "root" [⟨1, 2, false⟩] []) [] none (fun _ _ => rfl) (le_refl 0)
      zero_le_one (by decide)).2.1⟩

/-- C8: constructing either strategy fails exactly when the percentage is
outside `[0,1]`; `reserve` is total, and both a negative unshardable size
and a negative resulting device budget are propagated as numeric values
into the result. -/
theorem c8_percentage_guard :
    (∀ p : ℚ, FixedPercentageReservation.init p = none ↔ (p < 0 ∨ 1 < p))
    ∧ (∀ p : ℚ, HeuristicalStorageReservation.init p = none ↔
        (p < 0 ∨ 1 < p))
    ∧ unshardable_size [⟨"S", fun _ => []⟩]
        (.mk "S" [] [.mk "S" [⟨1, 1, false⟩] []]) < 0
    ∧ (HeuristicalStorageReservation.reserve ⟨0⟩ ⟨[⟨⟨5, 5⟩⟩], "cuda", 1⟩
        (.mk "root" [⟨1, 10, false⟩] []) [] none).reserved_topology.devices =
        [⟨⟨-5, 5⟩⟩] := by
  refine ⟨?_, ?_, by decide, ?_⟩
  · intro p
    by_cases h : 0 ≤ p ∧ p ≤ 1
    · simp only [FixedPercentageReservation.init, if_pos h]
      simp only [reduceCtorEq, false_iff]
      push_neg
      exact ⟨h.1, h.2⟩
    · simp only [FixedPercentageReservation.init, if_neg h, true_iff]
      rw [not_and_or, not_le, not_le] at h
      exact h
  · intro p
    by_cases h : 0 ≤ p ∧ p ≤ 1
    · simp only [HeuristicalStorageReservation.init, if_pos h]
      simp only [reduceCtorEq, false_iff]
      push_neg
      exact ⟨h.1, h.2⟩
    · simp only [HeuristicalStorageReservation.init, if_neg h, true_iff]
      rw [not_and_or, not_le, not_le] at h
      exact h
  · simp [HeuristicalStorageReservation.reserve, reserve_kjt_storage,
      reserve_dense_storage, reserve_storage_percentage, all_input_lengths,
      shardable_modules, is_shardable, sharder_map_get, Module.nodes,
      Module.nodesList, get_tensor_size, get_tensor_size_list,
      Module.ownSize, Module.ownTensors, tensor_size_of, Storage.sub_def,
      ratCeil_eq_ceil]
    have h5 : pyInt (5 : ℚ) = 5 := by
      rw [show (5 : ℚ) = ((5 : ℤ) : ℚ) by norm_num]
      exact pyInt_intCast 5
    rw [h5]
    norm_num

/-- C5 (amended): the recorded input length is `POOLING_FACTOR` when the
constraints dictionary is absent or has no entry for the name, and the sum
of the entry's pooling factors when an entry is present — including an
empty pooling-factor sequence, whose sum is 0, not the default constant. -/
theorem c5_input_length (cs : List (String × ParameterConstraints))
    (name : String) :
    input_length none name = POOLING_FACTOR
    ∧ (constraints_get cs name = none →
        input_length (some cs) name = POOLING_FACTOR)
    ∧ (∀ pc : ParameterConstraints, constraints_get cs name = some pc →
        input_length (some cs) name = pc.pooling_factors.sum) := by
  refine ⟨rfl, ?_, ?_⟩
  · intro h
    simp [input_length, h]
  · intro pc h
    simp [input_length, h]

/-- Witness for C5 at a concrete input. -/
theorem c5_witness :
    constraints_get [("a", ⟨[2, 3]⟩)] "a" = some ⟨[2, 3]⟩
    ∧ input_length (some [("a", ⟨[2, 3]⟩)]) "a" =
        (⟨[2, 3]⟩ : ParameterConstraints).pooling_factors.sum :=
  ⟨rfl, (c5_input_length [("a", ⟨[2, 3]⟩)] "a").2.2 ⟨[2, 3]⟩ rfl⟩

/-- Counterexample to C5 as stated: a present constraint with an empty
pooling-factor sequence yields input length 0, not the default constant
`POOLING_FACTOR`. -/
theorem c5_counterexample :
    constraints_get [("p", ⟨[]⟩)] "p" = some ⟨[]⟩
    ∧ input_length (some [("p", ⟨[]⟩)]) "p" ≠ POOLING_FACTOR := by
  refine ⟨rfl, ?_⟩
  have h0 : input_length (some [("p", ⟨[]⟩)]) "p" = 0 := rfl
  rw [h0, POOLING_FACTOR]
  exact zero_ne_one

/-! ## Dense-reservation accounting of shardable tensors (C6) -/

theorem sum_map_sub {α : Type} (l : List α) (f g : α → ℤ) :
    (l.map (fun a => f a - g a)).sum = (l.map f).sum - (l.map g).sum := by
  induction l with
  | nil => simp
  | cons a l ih =>
    simp only [List.map_cons, List.sum_cons, ih]
    ring

theorem erase_typeKey (s : List ModuleSharder) (m : Module) :
    (erase_shardable_own s m).typeKey = m.typeKey := by
  cases m
  rfl

theorem erase_is_shardable (s : List ModuleSharder) (m : Module) :
    is_shardable s (erase_shardable_own s m) = is_shardable s m := by
  rw [is_shardable, is_shardable, erase_typeKey]

mutual

theorem erase_nodes (s : List ModuleSharder) :
    ∀ m : Module, (erase_shardable_own s m).nodes =
      m.nodes.map (erase_shardable_own s)
  | .mk k ts cs => by
    simp only [erase_shardable_own, Module.nodes, List.map_cons]
    rw [erase_nodesList s cs]

theorem erase_nodesList (s : List ModuleSharder) :
    ∀ ms : List Module, Module.nodesList (erase_shardable_own_list s ms) =
      (Module.nodesList ms).map (erase_shardable_own s)
  | [] => rfl
  | m :: ms => by
    simp only [erase_shardable_own_list, Module.nodesList, List.map_append]
    rw [erase_nodes s m, erase_nodesList s ms]

end

mutual

theorem erase_size (s : List ModuleSharder) :
    ∀ m : Module, get_tensor_size (erase_shardable_own s m) =
      get_tensor_size m - shardable_own_sum s m
  | .mk k ts cs => by
    have hl := erase_size_list s cs
    cases hsh : is_shardable s (Module.mk k ts cs) <;>
      simp only [erase_shardable_own, get_tensor_size, hsh,
        Bool.false_eq_true, if_neg, if_pos, ite_true, ite_false,
        Module.ownSize, Module.ownTensors, List.map_nil, List.sum_nil, hl,
        shardable_own_sum, shardable_own_sum_list, Module.nodes,
        List.filter_cons, List.map_cons, List.sum_cons] <;>
      ring

theorem erase_size_list (s : List ModuleSharder) :
    ∀ ms : List Module,
      get_tensor_size_list (erase_shardable_own_list s ms) =
        get_tensor_size_list ms - shardable_own_sum_list s ms
  | [] => by
    simp [erase_shardable_own_list, get_tensor_size_list,
      shardable_own_sum_list, Module.nodesList]
  | m :: ms => by
    have h1 := erase_size s m
    have h2 := erase_size_list s ms
    simp only [erase_shardable_own_list, get_tensor_size_list, h1, h2,
      shardable_own_sum_list, Module.nodesList, List.filter_append,
      List.map_append, List.sum_append, shardable_own_sum]
    ring

end

theorem shardable_own_sum_eq_own (s : List ModuleSharder) (k : String)
    (ts : List Tensor) (cs : List Module)
    (hsh : is_shardable s (Module.mk k ts cs) = true)
    (hdesc : ∀ d ∈ Module.nodesList cs, is_shardable s d = false) :
    shardable_own_sum s (Module.mk k ts cs) =
      (Module.mk k ts cs).ownSize := by
  have hfil : (Module.nodesList cs).filter (is_shardable s) = [] :=
    List.filter_eq_nil_iff.mpr (fun d hd => by simp [hdesc d hd])
  simp [shardable_own_sum, Module.nodes, List.filter_cons, hsh, hfil]

/-- C6 (amended): whenever no shardable module lies strictly inside another
shardable module, the unshardable (dense) size is unchanged by erasing the
own tensors of every node in the shardable set — no such tensor
contributes to the dense reservation, at any nesting depth. -/
theorem c6_shardable_tensors_not_counted (s : List ModuleSharder)
    (m : Module) (h : no_nested_shardables s m = true) :
    unshardable_size s (erase_shardable_own s m) = unshardable_size s m := by
  have hall := List.all_eq_true.mp h
  have hfilter : (erase_shardable_own s m).nodes.filter (is_shardable s) =
      (m.nodes.filter (is_shardable s)).map (erase_shardable_own s) := by
    rw [erase_nodes, List.filter_map]
    congr 1
    apply List.filter_congr
    intro n _
    simp only [Function.comp_apply, erase_is_shardable]
  have hsingle : ∀ n ∈ m.nodes.filter (is_shardable s),
      shardable_own_sum s n = n.ownSize := by
    intro n hn
    obtain ⟨hnm, hns⟩ := List.mem_filter.mp hn
    have hb := hall n hnm
    rw [hns] at hb
    simp only [Bool.not_true, Bool.false_or] at hb
    have hdesc : ∀ d ∈ Module.nodesList n.children,
        is_shardable s d = false := by
      intro d hd
      have := List.all_eq_true.mp hb d hd
      simpa using this
    cases n with
    | mk k ts cs =>
      exact shardable_own_sum_eq_own s k ts cs hns
        (by simpa [Module.children] using hdesc)
  rw [unshardable_size, unshardable_size, shardable_modules,
    shardable_modules, erase_size, hfilter, List.map_map]
  have h1 : (m.nodes.filter (is_shardable s)).map
      (get_tensor_size ∘ erase_shardable_own s) =
      (m.nodes.filter (is_shardable s)).map
        (fun n => get_tensor_size n - shardable_own_sum s n) :=
    List.map_congr_left (fun n _ => by
      simp only [Function.comp_apply, erase_size])
  rw [h1, sum_map_sub]
  have h2 : (m.nodes.filter (is_shardable s)).map (shardable_own_sum s) =
      (m.nodes.filter (is_shardable s)).map Module.ownSize :=
    List.map_congr_left hsingle
  rw [h2]
  rw [show ((m.nodes.filter (is_shardable s)).map Module.ownSize).sum =
    shardable_own_sum s m from rfl]
  ring

/-- Witness for C6 (amended) at a concrete input. -/
theorem c6_witness :
    no_nested_shardables [⟨"S", fun _ => []⟩]
      (.mk "root" [⟨1, 2, false⟩] [.mk "S" [⟨1, 3, false⟩] []]) = true
    ∧ unshardable_size [⟨"S", fun _ => []⟩]
        (erase_shardable_own [⟨"S", fun _ => []⟩]
          (.mk "root" [⟨1, 2, false⟩] [.mk "S" [⟨1, 3, false⟩] []])) =
      unshardable_size [⟨"S", fun _ => []⟩]
        (.mk "root" [⟨1, 2, false⟩] [.mk "S" [⟨1, 3, false⟩] []]) :=
  ⟨by decide,
    c6_shardable_tensors_not_counted [⟨"S", fun _ => []⟩]
      (.mk "root" [⟨1, 2, false⟩] [.mk "S" [⟨1, 3, false⟩] []])
      (by decide)⟩

/-- Counterexample to C6 as stated: with a shardable module nested inside
another shardable module, erasing the shardable nodes' own tensors changes
the dense (unshardable) size — the inner node's tensor is double-counted
and contributes (negatively) to the dense reservation. -/
theorem c6_counterexample :
    unshardable_size [⟨"S", fun _ => []⟩]
        (erase_shardable_own [⟨"S", fun _ => []⟩]
          (.mk "S" [] [.mk "S" [⟨1, 1, false⟩] []])) ≠
      unshardable_size [⟨"S", fun _ => []⟩]
        (.mk "S" [] [.mk "S" [⟨1, 1, false⟩] []]) := by decide

end TorchRec
